import Mathlib

/-!
# Verification development for SACOG/GTFS-tools

Shallow embedding of the GTFS-processing code in
`gtfs-processor/gtfs_processor_latest.py` and `gtfs-link-speeds/gtfs_data.py`,
together with a spec-modelled rendering of the link-speed engine that
`gtfs-link-speeds/get-gtfs-link-speeds.py` only sketches in comments.

Conventions used throughout:
* Python strings are Lean `String` / `List Char`; pandas dataframes are lists
  of structure values, one structure per row schema.
* Times are modelled as integer seconds; floats produced by exact divisions
  are modelled as `ℚ`.
* Python exceptions are modelled with `Except PyErr`; a caught-and-swallowed
  exception that makes a function return `None` is `Except.ok none`.
-/

namespace GTFSTools

/-- Python exception kinds relevant to the embedded code. -/
inductive PyErr where
  | valueError
  | indexError
  | attributeError
  | fileNotFoundError
deriving DecidableEq, Repr

/-- A pandas cell as handed to `fix_time_stamp` by `Series.apply`: either a
string, or a non-string value (missing values are read as float NaN). -/
inductive PyCell where
  | pystr (s : String)
  | pynan
  | pyfloat (q : ℚ)
deriving DecidableEq, Repr

/-- Whether a `PyCell` is a Python string. -/
def PyCell.isStr : PyCell → Bool
  | PyCell.pystr _ => true
  | _ => false

/-- Python `str.split(sep)` for a one-character separator:
`"".split(':') = ['']`, `"a:b".split(':') = ['a','b']`, etc. -/
def pySplit (sep : Char) : List Char → List (List Char)
  | [] => [[]]
  | c :: rest =>
    let ps := pySplit sep rest
    if c = sep then [] :: ps
    else
      match ps with
      | [] => [[c]]
      | p :: ps2 => (c :: p) :: ps2

/-- Value of a nonempty all-digit character list, else `none`. -/
def digitsVal (l : List Char) : Option ℕ :=
  if l ≠ [] ∧ l.all Char.isDigit then
    some (l.foldl (fun acc c => acc * 10 + (c.toNat - 48)) 0)
  else none

/-- Python `int(s)` on a string: surrounding whitespace is allowed, then an
optional sign followed by at least one digit; anything else raises
`ValueError`, modelled as `none`. -/
def pyInt? (l : List Char) : Option ℤ :=
  let t := ((l.dropWhile Char.isWhitespace).reverse.dropWhile Char.isWhitespace).reverse
  match t with
  | [] => none
  | c :: ds =>
    if c = '-' then (digitsVal ds).map (fun n => -(n : ℤ))
    else if c = '+' then (digitsVal ds).map (fun n => (n : ℤ))
    else (digitsVal t).map (fun n => (n : ℤ))

/-- Python's list comprehension `[f(x) for x in l]` over a fallible `f`:
the first failure aborts the whole comprehension. -/
def optMapList {α β : Type} (f : α → Option β) : List α → Option (List β)
  | [] => some []
  | a :: rest =>
    match f a with
    | none => none
    | some b =>
      match optMapList f rest with
      | none => none
      | some bs => some (b :: bs)

/-- A fallible map where the first raised exception propagates, as in a
pandas `groupby(...).apply(...)` whose callable may raise. -/
def exceptMapList {α β : Type} (f : α → Except PyErr β) : List α → Except PyErr (List β)
  | [] => Except.ok []
  | a :: rest =>
    match f a with
    | Except.error e => Except.error e
    | Except.ok b =>
      match exceptMapList f rest with
      | Except.error e => Except.error e
      | Except.ok bs => Except.ok (b :: bs)

/-- The timestamp string built by `fix_time_stamp`:
`'{} {}:{}:{}'.format(str_date, hour, mins, secs)` with Python's unpadded
rendering of integers. -/
def mkStamp (str_date : String) (h m s : ℤ) : String :=
  str_date ++ " " ++ toString h ++ ":" ++ toString m ++ ":" ++ toString s

/-- `MakeGTFSGISData.fix_time_stamp` (gtfs_processor_latest.py, lines
401-422).  `str_date` stands for `datetime.strftime(datetime.now(),
'%Y-%m-%d')`, the current date, which the source interpolates into every
output stamp.  The source splits the input on `':'`, converts each part with
`int` (a failure raises `ValueError`), reads parts 0, 1, 2 (a short list
raises `IndexError`), subtracts 24 from the hour when it exceeds 23, and
formats `'{date} {h}:{m}:{s}'`.  Calling `.split` on a non-string raises
`AttributeError`, which the `except AttributeError: pass` swallows so the
function returns `None`. -/
def fix_time_stamp (str_date : String) (x : PyCell) : Except PyErr (Option String) :=
  match x with
  | PyCell.pystr s =>
    let str_split := pySplit ':' s.data
    match optMapList pyInt? str_split with
    | none => Except.error PyErr.valueError
    | some ints =>
      match ints with
      | hour :: mins :: secs :: _ =>
        if hour > 23 then
          let hourfixed := hour - 24
          Except.ok (some (mkStamp str_date hourfixed mins secs))
        else
          Except.ok (some (mkStamp str_date hour mins secs))
      | _ => Except.error PyErr.indexError
  | PyCell.pynan => Except.ok none
  | PyCell.pyfloat _ => Except.ok none

/-- Python `s.replace(old, new)` for a one-character needle: every
occurrence of `old` is replaced by `new`. -/
def pyReplaceChar (old : Char) (new : List Char) : List Char → List Char
  | [] => []
  | c :: rest => (if c = old then new else [c]) ++ pyReplaceChar old new rest

/-- One iteration of the `for old, new in repldict.items()` loop body of
`remove_forbidden_chars`: replace when `old in out_str`, else continue. -/
def replStep (s : List Char) (p : Char × List Char) : List Char :=
  if p.1 ∈ s then pyReplaceChar p.1 p.2 s else s

/-- The `repldict` of `remove_forbidden_chars`, in Python 3.7+ dict
insertion order. -/
def repldict : List (Char × List Char) :=
  [('&', "And".data), ('%', "pct".data), ('/', "_".data), (' ', "".data),
   ('-', "".data), ('(', "_".data), (')', "_".data)]

/-- `remove_forbidden_chars` (identical in gtfs_processor_latest.py lines
123-134 and gtfs_data.py lines 131-142): folds the replacement dict over the
input string. -/
def remove_forbidden_chars (in_str : String) : String :=
  String.mk (repldict.foldl replStep in_str.data)

/-- How `pd.to_datetime` reads a stamp produced by `fix_time_stamp` for
comparison purposes: the date part (before the space) and the seconds of
day.  Two stamps with the same date compare by their seconds of day. -/
def pd_timestamp_key (s : String) : Option (String × ℤ) :=
  match pySplit ' ' s.data with
  | [d, t] =>
    match optMapList pyInt? (pySplit ':' t) with
    | some [h, m, sec] => some (String.mk d, h * 3600 + m * 60 + sec)
    | _ => none
  | _ => none

/-- The travel-time field of `MakeGTFSGISData.get_prd_opdata`
(gtfs_processor_latest.py lines 497-499): the source computes
`df_startend[f_tripstart] - df_startend[f_tripend]` — trip *start* minus trip
*end* — and then applies pandas `.dt.seconds / 3600`.  Both stamps carry the
same date, so the subtraction yields `dep_secs - arr_secs` seconds, and the
pandas `.seconds` accessor of a Timedelta is its day-normalized
seconds-of-day component, i.e. the value modulo 86400, always in
`[0, 86400)`. -/
def trip_tt_hours (dep_secs arr_secs : ℤ) : ℚ :=
  (((dep_secs - arr_secs) % 86400 : ℤ) : ℚ) / 3600

/-- Follows the spec's words (§4.5), for comparison with `trip_tt_hours`:
travel time = end-stop arrival minus begin-stop departure, expressed in
hours, together with the invalid-duration flag raised exactly when the
normalized arrival precedes the normalized departure. -/
def spec_travel_time_hours (dep_secs arr_secs : ℤ) : ℚ × Bool :=
  (((arr_secs - dep_secs : ℤ) : ℚ) / 3600, decide (arr_secs < dep_secs))

/-- One row of the stop-times dataframe of `get_prd_opdata` after the
`fix_time_stamp` / `pd.to_datetime` steps: times are seconds of day (the
`.dt.time` view, every stamp carrying the same date). -/
structure StopTimeRow where
  trip_id : String
  dep_time_secs : ℕ
  arr_time_secs : ℕ
  stop_seq : ℕ
deriving DecidableEq, Repr

/-- The period filter of `MakeGTFSGISData.get_prd_opdata`
(gtfs_processor_latest.py lines 481-482):
`df_1.loc[(tripstart.dt.time >= ts_prd_start) & (tripstart.dt.time < ts_prd_end)]`. -/
def filter_to_period (prd_start prd_end : ℕ) (rows : List StopTimeRow) : List StopTimeRow :=
  rows.filter (fun r => decide (prd_start ≤ r.dep_time_secs) && decide (r.dep_time_secs < prd_end))

/-- A row of `trips.txt` as used by `augment_shpstbl` (join key and shape id;
the other columns do not influence the shapes table). -/
structure TripRow where
  trip_id : String
  shape_id : String
deriving DecidableEq, Repr

/-- A row of `stop_times.txt` restricted to the columns `augment_shpstbl`
loads: trip id, stop id, stop sequence. -/
structure StopTimeVisit where
  trip_id : String
  stop_id : String
  stop_sequence : ℕ
deriving DecidableEq, Repr

/-- A row of `stops.txt` restricted to stop id / lat / lon. -/
structure StopRow where
  stop_id : String
  stop_lat : ℚ
  stop_lon : ℚ
deriving DecidableEq, Repr

/-- A row of `shapes.txt`: shape id, point latitude/longitude, point
sequence. -/
structure ShapePtRow where
  shape_id : String
  shape_pt_lat : ℚ
  shape_pt_lon : ℚ
  shape_pt_sequence : ℕ
deriving DecidableEq, Repr

/-- A shapes-table row carrying the `shp_source` provenance column that
`augment_shpstbl` adds (`"shapestxt"` or `"stoptimestxt"`). -/
structure ShapePtSrcRow where
  shape_id : String
  shape_pt_lat : ℚ
  shape_pt_lon : ℚ
  shape_pt_sequence : ℕ
  shp_source : String
deriving DecidableEq, Repr

/-- pandas `left.merge(right, on=key)` (inner join): for each left row in
order, every matching right row in order. -/
def pandas_merge {α β : Type} (l : List α) (r : List β) (key : α → β → Bool) : List (α × β) :=
  l.foldr (fun a acc => ((r.filter (key a)).map (fun b => (a, b))) ++ acc) []

/-- Worker for `drop_duplicates`: keep the first occurrence of each value. -/
def dd_aux {α : Type} [DecidableEq α] (seen : List α) : List α → List α
  | [] => []
  | a :: rest => if a ∈ seen then dd_aux seen rest else a :: dd_aux (a :: seen) rest

/-- pandas `DataFrame.drop_duplicates()` / `Series.unique()`: first
occurrences, in encounter order. -/
def drop_duplicates {α : Type} [DecidableEq α] (l : List α) : List α :=
  dd_aux [] l

/-- The `sort_values(by=[shape_id, shape_pt_sequence])` comparison:
lexicographic on (shape id, point sequence). -/
def shp_le (a b : ShapePtRow) : Prop :=
  a.shape_id.data < b.shape_id.data ∨
    (a.shape_id = b.shape_id ∧ a.shape_pt_sequence ≤ b.shape_pt_sequence)

instance : DecidableRel shp_le :=
  fun a b => by unfold shp_le; infer_instance

instance : IsTotal ShapePtRow shp_le :=
  ⟨fun a b => by
    unfold shp_le
    rcases lt_trichotomy a.shape_id.data b.shape_id.data with h | h | h
    · exact Or.inl (Or.inl h)
    · have he : a.shape_id = b.shape_id := String.ext h
      rcases Nat.le_total a.shape_pt_sequence b.shape_pt_sequence with hs | hs
      · exact Or.inl (Or.inr ⟨he, hs⟩)
      · exact Or.inr (Or.inr ⟨he.symm, hs⟩)
    · exact Or.inr (Or.inl h)⟩

instance : IsTrans ShapePtRow shp_le :=
  ⟨fun a b c hab hbc => by
    unfold shp_le at hab hbc ⊢
    rcases hab with hab | ⟨hab, hab2⟩
    · rcases hbc with hbc | ⟨hbc, _⟩
      · exact Or.inl (hab.trans hbc)
      · exact Or.inl (hbc ▸ hab)
    · rcases hbc with hbc | ⟨hbc, hbc2⟩
      · exact Or.inl (hab ▸ hbc)
      · exact Or.inr ⟨hab.trans hbc, hab2.trans hbc2⟩⟩

/-- Comparison by point sequence alone. -/
def seq_le (a b : ShapePtRow) : Prop :=
  a.shape_pt_sequence ≤ b.shape_pt_sequence

instance : DecidableRel seq_le :=
  fun a b => by unfold seq_le; infer_instance

instance : IsTotal ShapePtRow seq_le :=
  ⟨fun a b => Nat.le_total a.shape_pt_sequence b.shape_pt_sequence⟩

instance : IsTrans ShapePtRow seq_le :=
  ⟨fun _ _ _ hab hbc => Nat.le_trans hab hbc⟩

/-- The `for shpid in tripshp_ids` loop of `augment_shpstbl`
(gtfs_processor_latest.py lines 383-388): for a shape id absent from
shapes.txt the source builds `shp_to_append` and evaluates
`df_shapes.append(shp_to_append)` — a pandas call returning a NEW dataframe,
whose value the source discards — so the accumulator is returned unchanged
in both branches. -/
def append_loop (shptxt_shpids : List String) (df_shpfrmstops : List ShapePtSrcRow)
    (df_shapes : List ShapePtSrcRow) (tripshp_ids : List String) : List ShapePtSrcRow :=
  tripshp_ids.foldl (fun acc shpid =>
    if shpid ∈ shptxt_shpids then acc
    else
      let shp_to_append := df_shpfrmstops.filter (fun r => decide (r.shape_id = shpid))
      let _ := acc ++ shp_to_append
      acc) df_shapes

/-- `MakeGTFSGISData.augment_shpstbl` (gtfs_processor_latest.py lines
333-395).  Builds the stop-times-based pseudo shapes table (join trips ×
stop_times × stops, project to shape columns, `drop_duplicates`,
`sort_values([shape_id, pt_seq])`, tag `"stoptimestxt"`).  When `shapes.txt`
loads, tags its rows `"shapestxt"` and loops over the trip table's shape
ids; for an id absent from shapes.txt the source evaluates
`df_shapes.append(shp_to_append)` — whose return value it discards, leaving
`df_shapes` unchanged.  When loading raises `FileNotFoundError`, the
stop-times-based table is used instead. -/
def augment_shpstbl (df_trips : List TripRow) (df_stoptimes : List StopTimeVisit)
    (df_stops : List StopRow) (shapes_txt : Option (List ShapePtRow)) : List ShapePtSrcRow :=
  let m1 := pandas_merge df_trips df_stoptimes (fun a b => decide (a.trip_id = b.trip_id))
  let m2 := pandas_merge m1 df_stops (fun ab c => decide (ab.2.stop_id = c.stop_id))
  let shpfrmstops0 : List ShapePtRow :=
    m2.map (fun x => ⟨x.1.1.shape_id, x.2.stop_lat, x.2.stop_lon, x.1.2.stop_sequence⟩)
  let shpfrmstops1 := drop_duplicates shpfrmstops0
  let shpfrmstops2 := List.insertionSort shp_le shpfrmstops1
  let df_shpfrmstops : List ShapePtSrcRow :=
    shpfrmstops2.map (fun r =>
      ⟨r.shape_id, r.shape_pt_lat, r.shape_pt_lon, r.shape_pt_sequence, "stoptimestxt"⟩)
  match shapes_txt with
  | some shp_rows =>
    let df_shapes : List ShapePtSrcRow :=
      shp_rows.map (fun r =>
        ⟨r.shape_id, r.shape_pt_lat, r.shape_pt_lon, r.shape_pt_sequence, "shapestxt"⟩)
    let shptxt_shpids := drop_duplicates (shp_rows.map (fun r => r.shape_id))
    let tripshp_ids := drop_duplicates (df_trips.map (fun t => t.shape_id))
    append_loop shptxt_shpids df_shpfrmstops df_shapes tripshp_ids
  | none => df_shpfrmstops

/-- A shapely LineString value: its coordinate sequence. -/
structure PyLineString where
  points : List (ℚ × ℚ)
deriving DecidableEq, Repr

/-- Models shapely's `LineString` constructor, which raises `ValueError` for
fewer than two coordinate tuples. -/
def mk_line_string (pts : List (ℚ × ℚ)) : Except PyErr PyLineString :=
  if pts.length < 2 then Except.error PyErr.valueError else Except.ok ⟨pts⟩

/-- The geometry column of a shape-point row as built by
`gpd.points_from_xy(df[lon], df[lat])`: an (x, y) = (lon, lat) pair. -/
def shape_pt_coord (r : ShapePtRow) : ℚ × ℚ :=
  (r.shape_pt_lon, r.shape_pt_lat)

/-- `GTFSData.make_lineshp_gdf` (gtfs_data.py lines 119-128): load the shape
points, `sort_values(by=[shape_id, shape_pt_sequence])`, then
`groupby(shape_id)[geometry].apply(lambda x: LineString(x.tolist()))` —
one line per shape id, group keys ascending, each group's points in the
sorted frame's order.  `lineshp_from_sorted` is the part after the sort. -/
def lineshp_from_sorted (sorted : List ShapePtRow) :
    Except PyErr (List (String × PyLineString)) :=
  let sids := drop_duplicates (sorted.map (fun r => r.shape_id))
  exceptMapList (fun sid =>
    (mk_line_string
      ((sorted.filter (fun r => decide (r.shape_id = sid))).map shape_pt_coord)).map
      (fun ls => (sid, ls))) sids

/-- `GTFSData.make_lineshp_gdf`, assembled: sort, then group-and-build. -/
def make_lineshp_gdf (rows : List ShapePtRow) : Except PyErr (List (String × PyLineString)) :=
  lineshp_from_sorted (List.insertionSort shp_le rows)

/-- Concrete trips table for the `augment_shpstbl` failing input: one trip
whose shape id is absent from shapes.txt. -/
def c3_trips : List TripRow := [⟨"T2", "S2"⟩]

/-- Concrete stop_times table for the `augment_shpstbl` failing input. -/
def c3_stoptimes : List StopTimeVisit := [⟨"T2", "A", 1⟩, ⟨"T2", "B", 2⟩]

/-- Concrete stops table for the `augment_shpstbl` failing input. -/
def c3_stops : List StopRow := [⟨"A", 0, 0⟩, ⟨"B", 1, 1⟩]

/-- Concrete shapes.txt for the `augment_shpstbl` failing input: contains
only shape `"S1"`, not the trip's `"S2"`. -/
def c3_shapestxt : List ShapePtRow := [⟨"S1", 5, 5, 1⟩, ⟨"S1", 6, 6, 2⟩]

/-- Modelled from the spec: the `TripLinkRecord` of §3 / §4.5.  The
link-speed engine is missing from the source
(`get-gtfs-link-speeds.py` is design comments only), so the record layout
follows the spec's words: travel time in hours, an invalid-duration flag, a
speed left undefined (`none`) when travel time is zero. -/
structure TripLinkRecord where
  trip_id : String
  route_id : String
  link_id : String
  link_distance : ℚ
  begin_departure_hrs : ℚ
  end_arrival_hrs : ℚ
  travel_time_hrs : ℚ
  invalid_duration : Bool
  link_speed : Option ℚ
  period : String
deriving DecidableEq, Repr

/-- Modelled from the spec: the Time & Speed Assembler of §4.5, missing from
the source.  Travel time = arrival − departure in hours; the record is
emitted with the invalid-duration flag when that is negative; speed =
distance / travel time, left undefined (with the undefined-speed marker
`none`) when travel time is zero. -/
def assemble_record (trip route link : String) (dist dep arr : ℚ) (prd : String) :
    TripLinkRecord :=
  let tt := arr - dep
  { trip_id := trip, route_id := route, link_id := link, link_distance := dist,
    begin_departure_hrs := dep, end_arrival_hrs := arr, travel_time_hrs := tt,
    invalid_duration := decide (tt < 0),
    link_speed := if tt = 0 then none else some (dist / tt),
    period := prd }

/-- Modelled from the spec: the Link Aggregator's included records (§4.6),
missing from the source.  The group of a (link id, period) pair, keeping
only the defined speeds; records carrying the undefined-speed marker
(`link_speed = none`) are excluded. -/
def included_speeds (recs : List TripLinkRecord) (lid prd : String) : List ℚ :=
  (recs.filter (fun r => decide (r.link_id = lid) && decide (r.period = prd))).filterMap
    (fun r => r.link_speed)

/-- Modelled from the spec: the `LinkSummary` of §3 / §4.6, missing from the
source.  `spd_var` is the sample variance; the sample standard deviation is
its square root, and is stored as its square to stay in `ℚ` (0 by the
documented convention for a single-record group). -/
structure LinkSummary where
  link_id : String
  period : String
  cnt_included : ℕ
  spd_min : ℚ
  spd_max : ℚ
  spd_mean : ℚ
  spd_var : ℚ
deriving DecidableEq, Repr

/-- Sample variance of a list of speeds about a given mean (0 by convention
when fewer than two samples). -/
def sample_var (l : List ℚ) (mean : ℚ) : ℚ :=
  if l.length ≤ 1 then 0
  else ((l.map (fun x => (x - mean) ^ 2)).sum) / ((l.length : ℚ) - 1)

/-- Modelled from the spec: the Link Aggregator of §4.6, missing from the
source.  Groups by (link id, period label) and computes min, max,
arithmetic mean and sample variance of speed over the group's included
records; `none` for an empty group. -/
def link_summary (recs : List TripLinkRecord) (lid prd : String) : Option LinkSummary :=
  match included_speeds recs lid prd with
  | [] => none
  | s :: rest =>
    let l := s :: rest
    some { link_id := lid, period := prd, cnt_included := l.length,
           spd_min := rest.foldl min s, spd_max := rest.foldl max s,
           spd_mean := l.sum / (l.length : ℚ),
           spd_var := sample_var l (l.sum / (l.length : ℚ)) }

/-! ## Helper lemmas -/

theorem mem_pyReplaceChar {c old : Char} {new s : List Char}
    (h : c ∈ pyReplaceChar old new s) : c ∈ new ∨ (c ∈ s ∧ c ≠ old) := by
  induction s with
  | nil => simp [pyReplaceChar] at h
  | cons a rest ih =>
    simp only [pyReplaceChar, List.mem_append] at h
    rcases h with h | h
    · by_cases ha : a = old
      · simp only [ha, if_pos rfl] at h
        exact Or.inl h
      · simp only [if_neg ha, List.mem_singleton] at h
        subst h
        exact Or.inr ⟨List.mem_cons_self _ _, ha⟩
    · rcases ih h with h2 | ⟨h2, h3⟩
      · exact Or.inl h2
      · exact Or.inr ⟨List.mem_cons_of_mem _ h2, h3⟩

theorem replStep_mem {c : Char} {s : List Char} {p : Char × List Char}
    (h : c ∈ replStep s p) : c ∈ p.2 ∨ (c ∈ s ∧ c ≠ p.1) := by
  unfold replStep at h
  by_cases hin : p.1 ∈ s
  · rw [if_pos hin] at h
    exact mem_pyReplaceChar h
  · rw [if_neg hin] at h
    refine Or.inr ⟨h, ?_⟩
    rintro rfl
    exact hin h

theorem replStep_not_mem {c : Char} {s : List Char} {p : Char × List Char}
    (hnew : c ∉ p.2) (hold : c = p.1 ∨ c ∉ s) : c ∉ replStep s p := by
  intro h
  rcases replStep_mem h with h2 | ⟨h2, h3⟩
  · exact hnew h2
  · rcases hold with rfl | h4
    · exact h3 rfl
    · exact h4 h2

theorem foldl_replStep_not_mem (c : Char) :
    ∀ (l : List (Char × List Char)) (s : List Char),
      (c ∉ s ∨ ∃ p ∈ l, p.1 = c) → (∀ p ∈ l, c ∉ p.2) →
      c ∉ l.foldl replStep s := by
  intro l
  induction l with
  | nil =>
    intro s hs _
    rcases hs with hs | ⟨p, hp, _⟩
    · exact hs
    · simp at hp
  | cons p l ih =>
    intro s hs hnew
    have hnewp : c ∉ p.2 := hnew p (List.mem_cons_self p l)
    have hnewl : ∀ q ∈ l, c ∉ q.2 := fun q hq => hnew q (List.mem_cons_of_mem p hq)
    simp only [List.foldl_cons]
    rcases hs with hs | ⟨q, hq, hqc⟩
    · exact ih (replStep s p) (Or.inl (replStep_not_mem hnewp (Or.inr hs))) hnewl
    · rcases List.mem_cons.mp hq with hqp | hq2
      · exact ih (replStep s p) (Or.inl (replStep_not_mem hnewp (Or.inl (hqp ▸ hqc.symm)))) hnewl
      · exact ih (replStep s p) (Or.inr ⟨q, hq2, hqc⟩) hnewl

theorem foldl_replStep_id :
    ∀ (l : List (Char × List Char)) (s : List Char),
      (∀ p ∈ l, p.1 ∉ s) → l.foldl replStep s = s := by
  intro l
  induction l with
  | nil => intro s _; rfl
  | cons p l ih =>
    intro s h
    have hp : p.1 ∉ s := h p (List.mem_cons_self p l)
    have hstep : replStep s p = s := by simp [replStep, hp]
    simp only [List.foldl_cons, hstep]
    exact ih s (fun q hq => h q (List.mem_cons_of_mem p hq))

theorem mem_dd_aux {α : Type} [DecidableEq α] :
    ∀ (l seen : List α) (a : α), a ∈ dd_aux seen l ↔ a ∈ l ∧ a ∉ seen := by
  intro l
  induction l with
  | nil => intro seen a; simp [dd_aux]
  | cons b t ih =>
    intro seen a
    by_cases hb : b ∈ seen
    · rw [show dd_aux seen (b :: t) = dd_aux seen t from by simp [dd_aux, hb]]
      rw [ih seen a]
      constructor
      · rintro ⟨h1, h2⟩
        exact ⟨List.mem_cons_of_mem b h1, h2⟩
      · rintro ⟨h1, h2⟩
        rcases List.mem_cons.mp h1 with rfl | h1
        · exact absurd hb h2
        · exact ⟨h1, h2⟩
    · rw [show dd_aux seen (b :: t) = b :: dd_aux (b :: seen) t from by simp [dd_aux, hb]]
      constructor
      · intro h
        rcases List.mem_cons.mp h with rfl | h1
        · exact ⟨List.mem_cons_self _ _, hb⟩
        · rcases (ih (b :: seen) a).mp h1 with ⟨h2, h3⟩
          exact ⟨List.mem_cons_of_mem b h2, fun hs => h3 (List.mem_cons_of_mem b hs)⟩
      · rintro ⟨h1, h2⟩
        rcases List.mem_cons.mp h1 with rfl | h3
        · exact List.mem_cons_self _ _
        · by_cases hab : a = b
          · subst hab
            exact List.mem_cons_self _ _
          · refine List.mem_cons_of_mem b ((ih (b :: seen) a).mpr ⟨h3, ?_⟩)
            intro hs
            rcases List.mem_cons.mp hs with h4 | h4
            · exact hab h4
            · exact h2 h4

theorem pairwise_perm_eq {α : Type} {R : α → α → Prop}
    (hA : ∀ a b, R a b → R b a → a = b) {l1 l2 : List α}
    (hp : l1.Perm l2) (h1 : l1.Pairwise R) (h2 : l2.Pairwise R) : l1 = l2 := by
  letI : IsAntisymm α R := ⟨hA⟩
  exact List.eq_of_perm_of_sorted hp h1 h2

theorem pairwise_key_lt {α K : Type} [PartialOrder K] (k : α → K) {l : List α}
    (hle : l.Pairwise (fun a b => k a ≤ k b)) (hnd : (l.map k).Nodup) :
    l.Pairwise (fun a b => k a < k b) := by
  have hne : l.Pairwise (fun a b => k a ≠ k b) := List.pairwise_map.mp hnd
  exact (hle.and hne).imp (fun h => lt_of_le_of_ne h.1 h.2)

theorem exceptMapList_ok_mem {α β : Type} {f : α → Except PyErr β} :
    ∀ {l : List α} {res : List β}, exceptMapList f l = Except.ok res →
      ∀ b ∈ res, ∃ a ∈ l, f a = Except.ok b := by
  intro l
  induction l with
  | nil =>
    intro res h b hb
    simp [exceptMapList] at h
    subst h
    simp at hb
  | cons a t ih =>
    intro res h b hb
    unfold exceptMapList at h
    cases hfa : f a with
    | error e => rw [hfa] at h; simp at h
    | ok b0 =>
      rw [hfa] at h
      cases hrest : exceptMapList f t with
      | error e => rw [hrest] at h; simp at h
      | ok bs =>
        rw [hrest] at h
        simp only [Except.ok.injEq] at h
        subst h
        rcases List.mem_cons.mp hb with rfl | hb2
        · exact ⟨a, List.mem_cons_self _ _, hfa⟩
        · rcases ih hrest b hb2 with ⟨a2, ha2, hfa2⟩
          exact ⟨a2, List.mem_cons_of_mem a ha2, hfa2⟩

theorem exceptMapList_ok_forall {α β : Type} {f : α → Except PyErr β} :
    ∀ {l : List α} {res : List β}, exceptMapList f l = Except.ok res →
      ∀ a ∈ l, ∃ b, f a = Except.ok b := by
  intro l
  induction l with
  | nil => intro res _ a ha; simp at ha
  | cons a t ih =>
    intro res h a2 ha2
    unfold exceptMapList at h
    cases hfa : f a with
    | error e => rw [hfa] at h; simp at h
    | ok b0 =>
      rw [hfa] at h
      cases hrest : exceptMapList f t with
      | error e => rw [hrest] at h; simp at h
      | ok bs =>
        rcases List.mem_cons.mp ha2 with rfl | ha3
        · exact ⟨b0, hfa⟩
        · exact ih hrest a2 ha3

theorem exceptMapList_error {α β : Type} {f : α → Except PyErr β} {e0 : PyErr} :
    ∀ {l : List α}, (∀ a ∈ l, (∃ b, f a = Except.ok b) ∨ f a = Except.error e0) →
      (∃ a ∈ l, f a = Except.error e0) → exceptMapList f l = Except.error e0 := by
  intro l
  induction l with
  | nil =>
    intro _ hbad
    rcases hbad with ⟨a, ha, _⟩
    simp at ha
  | cons a t ih =>
    intro hall hbad
    unfold exceptMapList
    rcases hall a (List.mem_cons_self a t) with ⟨b, hb⟩ | herr
    · rw [hb]
      have hrec : exceptMapList f t = Except.error e0 := by
        rcases hbad with ⟨a2, ha2, hfa2⟩
        rcases List.mem_cons.mp ha2 with rfl | ha3
        · rw [hb] at hfa2; simp at hfa2
        · exact ih (fun x hx => hall x (List.mem_cons_of_mem a hx)) ⟨a2, ha3, hfa2⟩
      rw [hrec]
    · rw [herr]

theorem append_loop_const (A : List String) (B : List ShapePtSrcRow) :
    ∀ (l : List String) (init : List ShapePtSrcRow), append_loop A B init l = init := by
  intro l
  induction l with
  | nil => intro init; rfl
  | cons x t ih =>
    intro init
    have hstep : (if x ∈ A then init
        else
          let shp_to_append := B.filter (fun r => decide (r.shape_id = x))
          let _ := init ++ shp_to_append
          init) = init := by
      by_cases hx : x ∈ A <;> simp [hx]
    unfold append_loop
    rw [List.foldl_cons]
    have ht := ih init
    unfold append_loop at ht
    rw [hstep]
    exact ht

theorem augment_shpstbl_some_eq (trips : List TripRow) (sts : List StopTimeVisit)
    (stops : List StopRow) (shp : List ShapePtRow) :
    augment_shpstbl trips sts stops (some shp)
      = shp.map (fun r =>
          ⟨r.shape_id, r.shape_pt_lat, r.shape_pt_lon, r.shape_pt_sequence, "shapestxt"⟩) := by
  unfold augment_shpstbl
  simp only [append_loop_const]

theorem insertionSort_pairwise_strict (rows : List ShapePtRow)
    (hnodup : (rows.map (fun r => (r.shape_id, r.shape_pt_sequence))).Nodup) :
    (List.insertionSort shp_le rows).Pairwise (fun a b =>
      a.shape_id.data < b.shape_id.data ∨
        (a.shape_id = b.shape_id ∧ a.shape_pt_sequence < b.shape_pt_sequence)) := by
  have hs : (List.insertionSort shp_le rows).Pairwise shp_le :=
    List.sorted_insertionSort shp_le rows
  have hnd2 : ((List.insertionSort shp_le rows).map
      (fun r => (r.shape_id, r.shape_pt_sequence))).Nodup :=
    ((List.perm_insertionSort shp_le rows).map _).nodup_iff.mpr hnodup
  have hne : (List.insertionSort shp_le rows).Pairwise
      (fun a b => (a.shape_id, a.shape_pt_sequence) ≠ (b.shape_id, b.shape_pt_sequence)) :=
    List.pairwise_map.mp hnd2
  refine (hs.and hne).imp ?_
  rintro a b ⟨hle, hne2⟩
  rcases hle with hlt | ⟨he, hs2⟩
  · exact Or.inl hlt
  · refine Or.inr ⟨he, lt_of_le_of_ne hs2 ?_⟩
    intro hseq
    exact hne2 (by rw [he, hseq])

theorem insertionSort_shp_eq {rows rows2 : List ShapePtRow} (hperm : rows.Perm rows2)
    (hnodup : (rows.map (fun r => (r.shape_id, r.shape_pt_sequence))).Nodup) :
    List.insertionSort shp_le rows = List.insertionSort shp_le rows2 := by
  have hnodup2 : (rows2.map (fun r => (r.shape_id, r.shape_pt_sequence))).Nodup :=
    ((hperm.map _).nodup_iff).mp hnodup
  refine pairwise_perm_eq ?_
    (((List.perm_insertionSort shp_le rows).trans hperm).trans
      (List.perm_insertionSort shp_le rows2).symm)
    (insertionSort_pairwise_strict rows hnodup)
    (insertionSort_pairwise_strict rows2 hnodup2)
  intro a b h1 h2
  exfalso
  rcases h1 with h1 | ⟨h1e, h1s⟩
  · rcases h2 with h2 | ⟨h2e, _⟩
    · exact absurd h2 (lt_asymm h1)
    · rw [h2e] at h1
      exact lt_irrefl _ h1
  · rcases h2 with h2 | ⟨_, h2s⟩
    · rw [h1e] at h2
      exact lt_irrefl _ h2
    · exact Nat.lt_asymm h1s h2s

theorem sorted_filter_seq (rows : List ShapePtRow) (sid : String)
    (hnodup : (rows.map (fun r => (r.shape_id, r.shape_pt_sequence))).Nodup) :
    (List.insertionSort shp_le rows).filter (fun r => decide (r.shape_id = sid))
      = List.insertionSort seq_le (rows.filter (fun r => decide (r.shape_id = sid))) := by
  have hApm : ((List.insertionSort shp_le rows).filter
        (fun r => decide (r.shape_id = sid))).Perm
      (rows.filter (fun r => decide (r.shape_id = sid))) :=
    List.Perm.filter _ (List.perm_insertionSort shp_le rows)
  have hBpm : (List.insertionSort seq_le
        (rows.filter (fun r => decide (r.shape_id = sid)))).Perm
      (rows.filter (fun r => decide (r.shape_id = sid))) :=
    List.perm_insertionSort seq_le _
  -- distinct sequence numbers within the filtered rows
  have hndseq : ((rows.filter (fun r => decide (r.shape_id = sid))).map
      (fun r => r.shape_pt_sequence)).Nodup := by
    have hpair : rows.Pairwise
        (fun a b => (a.shape_id, a.shape_pt_sequence) ≠ (b.shape_id, b.shape_pt_sequence)) :=
      List.pairwise_map.mp hnodup
    have hpf := List.Pairwise.sublist
      (@List.filter_sublist ShapePtRow (fun r => decide (r.shape_id = sid)) rows) hpair
    have hseqne : (rows.filter (fun r => decide (r.shape_id = sid))).Pairwise
        (fun a b => a.shape_pt_sequence ≠ b.shape_pt_sequence) := by
      refine hpf.imp_of_mem ?_
      intro a b ha hb hab hseq
      have ha2 : a.shape_id = sid := of_decide_eq_true (List.mem_filter.mp ha).2
      have hb2 : b.shape_id = sid := of_decide_eq_true (List.mem_filter.mp hb).2
      exact hab (by rw [ha2, hb2, hseq])
    exact List.pairwise_map.mpr hseqne
  -- left side: sorted lexicographically, all shape ids equal, so sorted by seq
  have hA_le : ((List.insertionSort shp_le rows).filter
      (fun r => decide (r.shape_id = sid))).Pairwise
      (fun a b => a.shape_pt_sequence ≤ b.shape_pt_sequence) := by
    have hsorted := List.sorted_insertionSort shp_le rows
    have hfil := List.Pairwise.sublist
      (@List.filter_sublist ShapePtRow (fun r => decide (r.shape_id = sid))
        (List.insertionSort shp_le rows)) hsorted
    refine hfil.imp_of_mem ?_
    intro a b ha hb hab
    have ha2 : a.shape_id = sid := of_decide_eq_true (List.mem_filter.mp ha).2
    have hb2 : b.shape_id = sid := of_decide_eq_true (List.mem_filter.mp hb).2
    rcases hab with hlt | ⟨_, hs2⟩
    · rw [ha2, hb2] at hlt
      exact absurd hlt (lt_irrefl _)
    · exact hs2
  have hA_lt := pairwise_key_lt (fun r : ShapePtRow => r.shape_pt_sequence) hA_le
    (((hApm.map _).nodup_iff).mpr hndseq)
  have hB_le : (List.insertionSort seq_le
      (rows.filter (fun r => decide (r.shape_id = sid)))).Pairwise
      (fun a b => a.shape_pt_sequence ≤ b.shape_pt_sequence) :=
    List.sorted_insertionSort seq_le _
  have hB_lt := pairwise_key_lt (fun r : ShapePtRow => r.shape_pt_sequence) hB_le
    (((hBpm.map _).nodup_iff).mpr hndseq)
  exact pairwise_perm_eq
    (fun a b h1 h2 => (Nat.lt_asymm h1 h2).elim)
    (hApm.trans hBpm.symm) hA_lt hB_lt

theorem filterMap_filter_isSome {α β : Type} (f : α → Option β) (l : List α) :
    (l.filter (fun a => (f a).isSome)).filterMap f = l.filterMap f := by
  induction l with
  | nil => rfl
  | cons a t ih =>
    cases hfa : f a <;>
      simp [List.filter_cons, List.filterMap_cons, hfa, ih]

/-! ## Claim theorems -/

/-- C1 (code_bug evidence): the travel-time field of `get_prd_opdata` is
computed as trip start minus trip end, whose pandas `.dt.seconds` view wraps
negative durations around.  For a trip departing 08:00:00 (28800 s) and
arriving 09:00:00 (32400 s), the code's field holds 23 hours, not the
claim's arrival − departure = 1 hour; and for an anomalous trip arriving
before it departs, the code silently yields a wrapped-around nonnegative 1
with no invalid-duration marker, where the spec's words demand the flagged
value −1. -/
theorem c1_travel_time_wraparound :
    trip_tt_hours 28800 32400 = 23
    ∧ spec_travel_time_hours 28800 32400 = (1, false)
    ∧ trip_tt_hours 28800 32400 ≠ (spec_travel_time_hours 28800 32400).1
    ∧ trip_tt_hours 32400 28800 = 1
    ∧ spec_travel_time_hours 32400 28800 = (-1, true) := by
  have e1 : ((28800 - 32400 : ℤ) % 86400) = 82800 := by decide
  have e2 : ((32400 - 28800 : ℤ) % 86400) = 3600 := by decide
  refine ⟨?_, ?_, ?_, ?_, ?_⟩ <;>
    simp [trip_tt_hours, spec_travel_time_hours, e1, e2] <;> norm_num

/-- C2 (counterexample): `fix_time_stamp` attaches the same current date to
every output stamp, so normalizing `"25:10:00"` yields `1:10:0` on the SAME
day as `"23:59:00"` — its timestamp key (4200 s) compares strictly BEFORE
23:59:00's key (86340 s), not after; and re-applying the fixer to its own
output raises `ValueError` instead of leaving it unchanged. -/
theorem c2_counterexample_same_day :
    fix_time_stamp "2026-10-12" (PyCell.pystr "25:10:00")
        = Except.ok (some "2026-10-12 1:10:0")
    ∧ fix_time_stamp "2026-10-12" (PyCell.pystr "23:59:00")
        = Except.ok (some "2026-10-12 23:59:0")
    ∧ pd_timestamp_key "2026-10-12 1:10:0" = some ("2026-10-12", 4200)
    ∧ pd_timestamp_key "2026-10-12 23:59:0" = some ("2026-10-12", 86340)
    ∧ ((4200 : ℤ) < 86340)
    ∧ fix_time_stamp "2026-10-12" (PyCell.pystr "2026-10-12 1:10:0")
        = Except.error PyErr.valueError := by
  exact ⟨rfl, rfl, rfl, rfl, by norm_num, rfl⟩

/-- C2 (amended): for every time string splitting into three `int`-parseable
fields, `fix_time_stamp` subtracts 24 from an hour exceeding 23 and
otherwise keeps it, always preserving the minute and second fields — but it
interpolates the one fixed current date `str_date` into the output in both
branches, so a wrapped time lands on the same logical day as every other
time rather than advancing to the next day. -/
theorem c2_amended_time_normalization (str_date t : String) (hs ms ss : List Char)
    (h m s : ℤ) (hsplit : pySplit ':' t.data = [hs, ms, ss])
    (hh : pyInt? hs = some h) (hm2 : pyInt? ms = some m) (hs2 : pyInt? ss = some s) :
    fix_time_stamp str_date (PyCell.pystr t)
      = Except.ok (some (mkStamp str_date (if 23 < h then h - 24 else h) m s)) := by
  have hmap : optMapList pyInt? [hs, ms, ss] = some [h, m, s] := by
    simp [optMapList, hh, hm2, hs2]
  simp only [fix_time_stamp, hsplit, hmap]
  by_cases hgt : 23 < h
  · simp [hgt]
  · simp [hgt]

/-- C2 (witness for the amended claim): normalizing `"25:10:00"` on date
2026-10-12 yields the stamp for 1:10:0 on that same date. -/
theorem c2_amended_witness :
    fix_time_stamp "2026-10-12" (PyCell.pystr "25:10:00")
      = Except.ok (some (mkStamp "2026-10-12" 1 10 0)) := by
  have h := c2_amended_time_normalization "2026-10-12" "25:10:00"
    "25".data "10".data "00".data 25 10 0 (by decide) (by decide) (by decide) (by decide)
  norm_num at h
  exact h

/-- C3 (code_bug evidence): with `shapes.txt` present but lacking the trip's
shape id `"S2"`, `augment_shpstbl` returns only the `shapes.txt` rows — the
`df_shapes.append(shp_to_append)` return value is discarded, so trip `"T2"`'s
shape receives no geometry at all; the FileNotFoundError branch on the same
input shows the stop-based `"S2"` rows the loop was meant to add. -/
theorem c3_missing_shape_gets_no_geometry :
    augment_shpstbl c3_trips c3_stoptimes c3_stops (some c3_shapestxt)
        = [⟨"S1", 5, 5, 1, "shapestxt"⟩, ⟨"S1", 6, 6, 2, "shapestxt"⟩]
    ∧ (augment_shpstbl c3_trips c3_stoptimes c3_stops (some c3_shapestxt)).filter
        (fun r => decide (r.shape_id = "S2")) = []
    ∧ (augment_shpstbl c3_trips c3_stoptimes c3_stops none).map (fun r => r.shape_id)
        = ["S2", "S2"] := by
  refine ⟨by decide, by decide, by decide⟩

/-- C5: the period filter of `get_prd_opdata` keeps a record exactly when
its begin-stop departure time t satisfies start ≤ t < end — half-open: a
departure exactly at the start is kept, one exactly at the end is not. -/
theorem c5_period_half_open (prd_start prd_end : ℕ) (rows : List StopTimeRow)
    (r : StopTimeRow) :
    r ∈ filter_to_period prd_start prd_end rows ↔
      r ∈ rows ∧ prd_start ≤ r.dep_time_secs ∧ r.dep_time_secs < prd_end := by
  simp [filter_to_period, List.mem_filter, and_assoc]

/-- C5 (witness): a record departing exactly at the period start is kept. -/
theorem c5_period_half_open_witness :
    (⟨"T1", 900, 910, 1⟩ : StopTimeRow) ∈ filter_to_period 900 3600 [⟨"T1", 900, 910, 1⟩]
      ↔ ((⟨"T1", 900, 910, 1⟩ : StopTimeRow) ∈ [(⟨"T1", 900, 910, 1⟩ : StopTimeRow)]
        ∧ 900 ≤ (⟨"T1", 900, 910, 1⟩ : StopTimeRow).dep_time_secs
        ∧ (⟨"T1", 900, 910, 1⟩ : StopTimeRow).dep_time_secs < 3600) :=
  c5_period_half_open 900 3600 [⟨"T1", 900, 910, 1⟩] ⟨"T1", 900, 910, 1⟩

set_option maxHeartbeats 1000000 in
/-- C8: `remove_forbidden_chars` is idempotent, and its output never
contains any of the replaced characters `& % / space - ( )`. -/
theorem c8_remove_forbidden_chars_idempotent_clean (s : String) :
    remove_forbidden_chars (remove_forbidden_chars s) = remove_forbidden_chars s
    ∧ '&' ∉ (remove_forbidden_chars s).data
    ∧ '%' ∉ (remove_forbidden_chars s).data
    ∧ '/' ∉ (remove_forbidden_chars s).data
    ∧ ' ' ∉ (remove_forbidden_chars s).data
    ∧ '-' ∉ (remove_forbidden_chars s).data
    ∧ '(' ∉ (remove_forbidden_chars s).data
    ∧ ')' ∉ (remove_forbidden_chars s).data := by
  have habs : ∀ c ∈ repldict.map Prod.fst, c ∉ (remove_forbidden_chars s).data := by
    intro c hc
    have hex : ∃ p ∈ repldict, p.1 = c := by
      rcases List.mem_map.mp hc with ⟨p, hp, hpc⟩
      exact ⟨p, hp, hpc⟩
    have hnew : ∀ p ∈ repldict, c ∉ p.2 :=
      (by decide : ∀ c ∈ repldict.map Prod.fst, ∀ p ∈ repldict, c ∉ p.2) c hc
    exact foldl_replStep_not_mem c repldict s.data (Or.inr hex) hnew
  have hid : remove_forbidden_chars (remove_forbidden_chars s) = remove_forbidden_chars s := by
    have h2 : ∀ p ∈ repldict, p.1 ∉ (remove_forbidden_chars s).data :=
      fun p hp => habs p.1 (List.mem_map_of_mem Prod.fst hp)
    show String.mk (repldict.foldl replStep (remove_forbidden_chars s).data)
        = remove_forbidden_chars s
    rw [foldl_replStep_id repldict _ h2]
  exact ⟨hid, habs '&' (by decide), habs '%' (by decide), habs '/' (by decide),
    habs ' ' (by decide), habs '-' (by decide), habs '(' (by decide), habs ')' (by decide)⟩

/-- C8 (witness): idempotence at a concrete agency name. -/
theorem c8_witness :
    remove_forbidden_chars (remove_forbidden_chars "Sacramento Regional Transit (SacRT)")
      = remove_forbidden_chars "Sacramento Regional Transit (SacRT)" :=
  (c8_remove_forbidden_chars_idempotent_clean "Sacramento Regional Transit (SacRT)").1

/-- C9: for every non-string cell (e.g. a missing time read as float NaN),
`fix_time_stamp` returns `None` — the `AttributeError` from `.split` is
caught and swallowed — instead of raising. -/
theorem c9_non_string_returns_none (str_date : String) (x : PyCell)
    (h : x.isStr = false) :
    fix_time_stamp str_date x = Except.ok none := by
  cases x with
  | pystr s => simp [PyCell.isStr] at h
  | pynan => rfl
  | pyfloat q => rfl

/-- C9 (witness): a NaN cell flows through as `None`. -/
theorem c9_witness :
    fix_time_stamp "2026-10-12" PyCell.pynan = Except.ok none :=
  c9_non_string_returns_none "2026-10-12" PyCell.pynan rfl

theorem mk_line_string_ok {pts : List (ℚ × ℚ)} {ls : PyLineString}
    (h : mk_line_string pts = Except.ok ls) : ls.points = pts ∧ 2 ≤ pts.length := by
  unfold mk_line_string at h
  by_cases hlen : pts.length < 2
  · rw [if_pos hlen] at h
    simp at h
  · rw [if_neg hlen] at h
    simp only [Except.ok.injEq] at h
    subst h
    exact ⟨rfl, Nat.le_of_not_lt hlen⟩

theorem mk_line_string_cases (pts : List (ℚ × ℚ)) :
    (∃ ls, mk_line_string pts = Except.ok ls)
      ∨ mk_line_string pts = Except.error PyErr.valueError := by
  unfold mk_line_string
  by_cases hlen : pts.length < 2
  · rw [if_pos hlen]
    exact Or.inr rfl
  · rw [if_neg hlen]
    exact Or.inl ⟨⟨pts⟩, rfl⟩

/-- C4: for every shape id the shapes table provides, the resolved
polyline's vertices are exactly that shape's points in ascending
point-sequence order — independent of input row order — and shapes.txt
geometry carries the from-shape (`"shapestxt"`) provenance tag. -/
theorem c4_shape_polyline_from_shapes (rows rows2 : List ShapePtRow)
    (hperm : rows.Perm rows2)
    (hnodup : (rows.map (fun r => (r.shape_id, r.shape_pt_sequence))).Nodup) :
    make_lineshp_gdf rows = make_lineshp_gdf rows2
    ∧ (∀ res, make_lineshp_gdf rows = Except.ok res →
        ∀ sid ls, (sid, ls) ∈ res →
          ls.points = (List.insertionSort seq_le
              (rows.filter (fun r => decide (r.shape_id = sid)))).map shape_pt_coord)
    ∧ (∀ (trips : List TripRow) (sts : List StopTimeVisit) (stops : List StopRow)
        (shp : List ShapePtRow) (r : ShapePtSrcRow),
        r ∈ augment_shpstbl trips sts stops (some shp) → r.shp_source = "shapestxt") := by
  refine ⟨?_, ?_, ?_⟩
  · show lineshp_from_sorted (List.insertionSort shp_le rows)
        = lineshp_from_sorted (List.insertionSort shp_le rows2)
    rw [insertionSort_shp_eq hperm hnodup]
  · intro res hres sid ls hmem
    have hres2 : exceptMapList (fun sid =>
        (mk_line_string (((List.insertionSort shp_le rows).filter
          (fun r => decide (r.shape_id = sid))).map shape_pt_coord)).map
          (fun ls => (sid, ls)))
        (drop_duplicates ((List.insertionSort shp_le rows).map (fun r => r.shape_id)))
        = Except.ok res := hres
    rcases exceptMapList_ok_mem hres2 (sid, ls) hmem with ⟨sid0, _, hf⟩
    cases hls : mk_line_string (((List.insertionSort shp_le rows).filter
        (fun r => decide (r.shape_id = sid0))).map shape_pt_coord) with
    | error e =>
      rw [hls] at hf
      simp [Except.map] at hf
    | ok ls0 =>
      rw [hls] at hf
      simp only [Except.map, Except.ok.injEq, Prod.mk.injEq] at hf
      rcases hf with ⟨rfl, rfl⟩
      rcases mk_line_string_ok hls with ⟨hpts, _⟩
      rw [hpts, sorted_filter_seq rows sid0 hnodup]
  · intro trips sts stops shp r hr
    rw [augment_shpstbl_some_eq] at hr
    rcases List.mem_map.mp hr with ⟨r0, _, rfl⟩
    rfl

/-- C4 (witness): the two-point shape `"S"` resolves identically from both
row orders. -/
theorem c4_witness :
    make_lineshp_gdf [⟨"S", 0, 1, 2⟩, ⟨"S", 2, 3, 1⟩]
      = make_lineshp_gdf [⟨"S", 2, 3, 1⟩, ⟨"S", 0, 1, 2⟩] :=
  (c4_shape_polyline_from_shapes [⟨"S", 0, 1, 2⟩, ⟨"S", 2, 3, 1⟩]
    [⟨"S", 2, 3, 1⟩, ⟨"S", 0, 1, 2⟩] (by decide) (by decide)).1

/-- C10: `make_lineshp_gdf` succeeds only when every shape id in the shapes
table has at least two points, and a shape id with exactly one point makes
the construction raise (`ValueError` from shapely's LineString) rather than
produce a degenerate one-point geometry. -/
theorem c10_lineshp_needs_two_points (rows : List ShapePtRow) :
    (∀ res, make_lineshp_gdf rows = Except.ok res →
      ∀ sid, sid ∈ rows.map (fun r => r.shape_id) →
        2 ≤ (rows.filter (fun r => decide (r.shape_id = sid))).length)
    ∧ (∀ sid, (rows.filter (fun r => decide (r.shape_id = sid))).length = 1 →
        make_lineshp_gdf rows = Except.error PyErr.valueError) := by
  have hsidmem : ∀ sid : String, sid ∈ rows.map (fun r => r.shape_id) ↔
      sid ∈ dd_aux [] ((List.insertionSort shp_le rows).map (fun r => r.shape_id)) := by
    intro sid
    rw [mem_dd_aux]
    constructor
    · intro hm
      exact ⟨((List.perm_insertionSort shp_le rows).map _).mem_iff.mpr hm, by simp⟩
    · rintro ⟨hm, _⟩
      exact ((List.perm_insertionSort shp_le rows).map _).mem_iff.mp hm
  have hfillen : ∀ sid : String,
      ((List.insertionSort shp_le rows).filter (fun r => decide (r.shape_id = sid))).length
        = (rows.filter (fun r => decide (r.shape_id = sid))).length :=
    fun sid => (List.Perm.filter _ (List.perm_insertionSort shp_le rows)).length_eq
  constructor
  · intro res hres sid hsid
    have hres2 : exceptMapList (fun sid =>
        (mk_line_string (((List.insertionSort shp_le rows).filter
          (fun r => decide (r.shape_id = sid))).map shape_pt_coord)).map
          (fun ls => (sid, ls)))
        (drop_duplicates ((List.insertionSort shp_le rows).map (fun r => r.shape_id)))
        = Except.ok res := hres
    rcases exceptMapList_ok_forall hres2 sid ((hsidmem sid).mp hsid) with ⟨b, hb⟩
    cases hls : mk_line_string (((List.insertionSort shp_le rows).filter
        (fun r => decide (r.shape_id = sid))).map shape_pt_coord) with
    | error e =>
      rw [hls] at hb
      simp [Except.map] at hb
    | ok ls0 =>
      rcases mk_line_string_ok hls with ⟨_, hlen⟩
      rw [List.length_map, hfillen sid] at hlen
      exact hlen
  · intro sid hlen1
    rcases List.length_eq_one.mp hlen1 with ⟨x, hx⟩
    have hxmem : x ∈ rows.filter (fun r => decide (r.shape_id = sid)) := by
      rw [hx]
      exact List.mem_cons_self _ _
    have hsid : sid ∈ rows.map (fun r => r.shape_id) :=
      List.mem_map.mpr ⟨x, (List.mem_filter.mp hxmem).1,
        of_decide_eq_true (List.mem_filter.mp hxmem).2⟩
    show exceptMapList (fun sid =>
        (mk_line_string (((List.insertionSort shp_le rows).filter
          (fun r => decide (r.shape_id = sid))).map shape_pt_coord)).map
          (fun ls => (sid, ls)))
        (drop_duplicates ((List.insertionSort shp_le rows).map (fun r => r.shape_id)))
        = Except.error PyErr.valueError
    refine exceptMapList_error ?_ ⟨sid, (hsidmem sid).mp hsid, ?_⟩
    · intro a _
      rcases mk_line_string_cases (((List.insertionSort shp_le rows).filter
          (fun r => decide (r.shape_id = a))).map shape_pt_coord) with ⟨ls, hls⟩ | hls
      · refine Or.inl ⟨(a, ls), ?_⟩
        show (mk_line_string (((List.insertionSort shp_le rows).filter
            (fun r => decide (r.shape_id = a))).map shape_pt_coord)).map
            (fun ls => (a, ls)) = Except.ok (a, ls)
        rw [hls]
        rfl
      · refine Or.inr ?_
        show (mk_line_string (((List.insertionSort shp_le rows).filter
            (fun r => decide (r.shape_id = a))).map shape_pt_coord)).map
            (fun ls => (a, ls)) = Except.error PyErr.valueError
        rw [hls]
        rfl
    · show (mk_line_string (((List.insertionSort shp_le rows).filter
          (fun r => decide (r.shape_id = sid))).map shape_pt_coord)).map
          (fun ls => (sid, ls)) = Except.error PyErr.valueError
      have hshort : (((List.insertionSort shp_le rows).filter
          (fun r => decide (r.shape_id = sid))).map shape_pt_coord).length < 2 := by
        rw [List.length_map, hfillen sid, hlen1]
        norm_num
      unfold mk_line_string
      rw [if_pos hshort]
      rfl

/-- C10 (witness): a shapes table whose only shape has a single point makes
the line builder raise. -/
theorem c10_witness :
    make_lineshp_gdf [⟨"S1", 0, 0, 1⟩] = Except.error PyErr.valueError :=
  (c10_lineshp_needs_two_points [⟨"S1", 0, 0, 1⟩]).2 "S1" (by decide)

/-- C6: a trip-link record assembled with zero travel time carries the
undefined-speed marker (`link_speed = none`) — no division is performed —
and undefined-speed records never influence `link_summary`: dropping them
from the input leaves every summary unchanged. -/
theorem c6_zero_travel_time_undefined_speed (trip route link : String)
    (dist dep arr : ℚ) (prd : String) (h0 : arr - dep = 0) :
    (assemble_record trip route link dist dep arr prd).link_speed = none
    ∧ ∀ (recs : List TripLinkRecord) (lid p : String),
        link_summary recs lid p
          = link_summary (recs.filter (fun r => r.link_speed.isSome)) lid p := by
  constructor
  · simp [assemble_record, h0]
  · intro recs lid p
    have hinc : included_speeds (recs.filter (fun r => r.link_speed.isSome)) lid p
        = included_speeds recs lid p := by
      unfold included_speeds
      rw [List.filter_comm]
      exact filterMap_filter_isSome (fun r => r.link_speed)
        (recs.filter (fun r => decide (r.link_id = lid) && decide (r.period = p)))
    unfold link_summary
    rw [hinc]

/-- C6 (witness): equal departure and arrival times give the marker. -/
theorem c6_witness :
    (assemble_record "t1" "r1" "A_B" 5 1 1 "AM").link_speed = none :=
  (c6_zero_travel_time_undefined_speed "t1" "r1" "A_B" 5 1 1 "AM" (by norm_num)).1

/-- C7: aggregation groups trip-link records by (link id, period) and, for a
group whose included speeds are exactly {10, 20, 30}, produces the summary
with min 10, max 30, mean 20, included count 3 (and sample variance 100,
whose square root is the sample standard deviation). -/
theorem c7_aggregate_stats (recs : List TripLinkRecord) (p : String)
    (h : (included_speeds recs "A_B" p).Perm [10, 20, 30]) :
    link_summary recs "A_B" p
      = some ⟨"A_B", p, 3, 10, 30, 20, 100⟩ := by
  obtain ⟨a, b, c, hq⟩ : ∃ a b c, included_speeds recs "A_B" p = [a, b, c] := by
    have hlen := h.length_eq
    rcases hl : included_speeds recs "A_B" p with _ | ⟨a, _ | ⟨b, _ | ⟨c, _ | ⟨d, t⟩⟩⟩⟩
    · rw [hl] at hlen
      simp at hlen
    · rw [hl] at hlen
      simp at hlen
    · rw [hl] at hlen
      simp at hlen
    · exact ⟨a, b, c, rfl⟩
    · rw [hl] at hlen
      simp at hlen
  rw [hq] at h
  have ha : a ∈ ([10, 20, 30] : List ℚ) := h.subset (by simp)
  have hb : b ∈ ([10, 20, 30] : List ℚ) := h.subset (by simp)
  have hc : c ∈ ([10, 20, 30] : List ℚ) := h.subset (by simp)
  simp only [List.mem_cons, List.not_mem_nil, or_false] at ha hb hc
  unfold link_summary
  rw [hq]
  rcases ha with rfl | rfl | rfl <;> rcases hb with rfl | rfl | rfl <;>
    rcases hc with rfl | rfl | rfl <;>
    first
    | exact absurd h (by decide)
    | (simp only [sample_var]
       norm_num [min_def, max_def])

/-- C7 (witness): three concrete records on link `"A_B"` with speeds
10, 20, 30 (a foreign-link record and a zero-travel-time record present)
aggregate to min 10, max 30, mean 20, count 3. -/
theorem c7_witness :
    link_summary
      [assemble_record "t1" "r" "A_B" 10 0 1 "AM",
       assemble_record "t2" "r" "A_B" 40 0 2 "AM",
       assemble_record "t3" "r" "A_B" 90 0 3 "AM",
       assemble_record "t4" "r" "B_C" 7 0 1 "AM",
       assemble_record "t5" "r" "A_B" 3 1 1 "AM"] "A_B" "AM"
      = some ⟨"A_B", "AM", 3, 10, 30, 20, 100⟩ := by
  have hinc : included_speeds
      [assemble_record "t1" "r" "A_B" 10 0 1 "AM",
       assemble_record "t2" "r" "A_B" 40 0 2 "AM",
       assemble_record "t3" "r" "A_B" 90 0 3 "AM",
       assemble_record "t4" "r" "B_C" 7 0 1 "AM",
       assemble_record "t5" "r" "A_B" 3 1 1 "AM"] "A_B" "AM" = [10, 20, 30] := by
    norm_num [included_speeds, assemble_record, List.filter_cons, List.filterMap_cons]
    intro a ha
    rw [if_neg (by decide)] at ha
    simp only [List.mem_singleton] at ha
    subst ha
    rfl
  exact c7_aggregate_stats _ "AM" (hinc ▸ List.Perm.refl _)

end GTFSTools
